import Mathlib

/-!
# The processor-in-the-loop session loop of `examples/5_mbe/reuc_pitl.c`

A shallow embedding of `main` of `reuc_pitl.c` and theorems about it.

* C scalars: a `uint64_t` is a natural number below `2 ^ 64`; a `double` is
  represented by its 64-bit pattern (a natural number below `2 ^ 64`), so that
  equality of two modelled doubles is bit-for-bit equality.
* `udp_pull` copies raw bytes into the storage of a variable, so the value a
  variable takes is the host's reading of those bytes (`load`), for either byte
  order.
* The datagram transport (`udp-helper.c`) and the controller (`reuc.c`) are not
  part of the source file; they are modelled from the specification and are
  marked as such.
* The environment of a run is the list of things that happen at the successive
  calls of `udp_receive` (`Event`): a datagram arrives (`Tick`), or the
  transport fails. A run whose environment is exhausted is blocked for ever
  inside `udp_receive`. A transport call that fails is fatal, as the
  specification says: the process ends at that call.
* The two `printf` calls of `main` write to standard output only and are left
  out of the call trace.
-/

namespace ReucPitl

/-! ## Host representation of the scalar types -/

/-- Byte order of the host: the wire format is the host's native byte order. -/
inductive ByteOrder where
  | little
  | big
  deriving DecidableEq

/-- Value of a byte string read least significant byte first. -/
def loadLE : List Nat → Nat
  | [] => 0
  | b :: bs => b % 256 + 256 * loadLE bs

/-- The `n` low bytes of `v`, least significant byte first. -/
def storeLE : Nat → Nat → List Nat
  | 0, _ => []
  | n + 1, v => v % 256 :: storeLE n (v / 256)

/-- Value the host reads from the bytes of an 8-byte object (`uint64_t`, or the
bit pattern of a `double`). -/
def load (o : ByteOrder) (bs : List Nat) : Nat :=
  match o with
  | .little => loadLE bs
  | .big => loadLE bs.reverse

/-- The 8 bytes the host keeps in memory for a 64-bit value. -/
def store (o : ByteOrder) (v : Nat) : List Nat :=
  match o with
  | .little => storeLE 8 v
  | .big => (storeLE 8 v).reverse

/-- A `double[3]` array (`w_BI_B`, `tau_B`), as three bit patterns. -/
structure Vec3 where
  e0 : Nat
  e1 : Nat
  e2 : Nat
  deriving DecidableEq

/-- A `double[4]` array (`q_TI`, `q_BI`), as four bit patterns. -/
structure Vec4 where
  e0 : Nat
  e1 : Nat
  e2 : Nat
  e3 : Nat
  deriving DecidableEq

/-- Value of a `double[3]` whose storage holds the bytes `bs`. -/
def loadVec3 (o : ByteOrder) (bs : List Nat) : Vec3 :=
  { e0 := load o (bs.take 8)
    e1 := load o ((bs.drop 8).take 8)
    e2 := load o ((bs.drop 16).take 8) }

/-- Value of a `double[4]` whose storage holds the bytes `bs`. -/
def loadVec4 (o : ByteOrder) (bs : List Nat) : Vec4 :=
  { e0 := load o (bs.take 8)
    e1 := load o ((bs.drop 8).take 8)
    e2 := load o ((bs.drop 16).take 8)
    e3 := load o ((bs.drop 24).take 8) }

/-- The 24 bytes of storage of a `double[3]`. -/
def storeVec3 (o : ByteOrder) (v : Vec3) : List Nat :=
  store o v.e0 ++ store o v.e1 ++ store o v.e2

/-- The 32 bytes of storage of a `double[4]`. -/
def storeVec4 (o : ByteOrder) (v : Vec4) : List Nat :=
  store o v.e0 ++ store o v.e1 ++ store o v.e2 ++ store o v.e3

/-! ## The target: byte order and controller -/

/-- Modelled from the spec: `reuc.c` and `reuc.h` are missing. The controller
function is "pure, stateless, externally supplied" and maps (moment-of-inertia,
gain-kappa, gain-mu, density-rho, angle-alpha, target-attitude-quaternion,
body-attitude-quaternion, body-angular-rate) to the torque vector; it is a
parameter of the model, together with the byte order of the host. -/
structure Target where
  order : ByteOrder
  reuc : Nat → Nat → Nat → Nat → Nat → Vec4 → Vec4 → Vec3 → Vec3

/-! ## The datagram transport -/

/-- A datagram that arrives at a call of `udp_receive`. `data` is its
payload; `beyond i` is the byte a read finds at offset `i` when that offset is
past the end of the datagram (the specification leaves such a read undefined,
so the environment chooses it). -/
structure Tick where
  data : List Nat
  beyond : Nat → Nat

/-- Modelled from the spec: `udp-helper.c` is missing. What the environment
does at one call of `udp_receive` and at the `udp_transmit` that may follow
it. "Any transport failure during receive or send is fatal and terminates the
process after reporting" (sections 4.2 and 7), so besides the arrival of a
datagram that is answered without failure there are two events: the receive
fails, or a datagram arrives and the transmit of that pass fails. -/
inductive Event where
  | arrival (t : Tick)
  | recv_failure
  | send_failure (t : Tick)

/-- The datagram that `udp_receive` hands over at the event, `none` when the
receive fails. -/
def Event.tick : Event → Option Tick
  | Event.arrival t => some t
  | Event.recv_failure => none
  | Event.send_failure t => some t

/-- Whether the `udp_transmit` of the pass succeeds. -/
def Event.send_ok : Event → Bool
  | Event.arrival _ => true
  | Event.recv_failure => true
  | Event.send_failure _ => false

/-- Modelled from the spec: the type `UDPHelper` of `udp-helper.h` is missing.
The endpoint holds the most recently received datagram with a read cursor, the
pending outbound datagram, the datagrams handed to the network so far, and
whether it has been closed. -/
structure UDPHelper where
  receive_buffer : List Nat
  beyond : Nat → Nat
  receive_index : Nat
  send_buffer : List Nat
  sent : List (List Nat)
  closed : Bool

/-- Modelled from the spec: `udp_helper` of `udp-helper.c` is missing;
`open(listen_port, peer_port, respond_to_last_sender, default_peer_address)`
gives a fresh endpoint. A failure to bind is not modelled. -/
def udp_helper (_listen_port _target_port _respond_to_sender : Nat) : UDPHelper :=
  { receive_buffer := []
    beyond := fun _ => 0
    receive_index := 0
    send_buffer := []
    sent := []
    closed := false }

/-- The `width` bytes a read at offset `off` of the buffer `buf` finds. -/
def bytesAt (buf : List Nat) (beyond : Nat → Nat) (off width : Nat) : List Nat :=
  (List.range width).map fun k => buf.getD (off + k) (beyond (off + k))

/-- Modelled from the spec: `udp_receive` of `udp-helper.c` is missing;
`receive_blocking(endpoint) -> byte_count` makes the datagram that arrived the
most recently received one, to be read from its start, and returns its size. A
receive that fails does not return: it ends the process (`iteration`). -/
def udp_receive (c : UDPHelper) (t : Tick) : UDPHelper × Int :=
  ({ c with receive_buffer := t.data, beyond := t.beyond, receive_index := 0 },
   (t.data.length : Int))

/-- Modelled from the spec: `udp_pull` of `udp-helper.c` is missing;
`read_field(endpoint, out_buffer, width)` "consumes `width` bytes from the most
recently received datagram, in call order". The bytes are returned for the
caller to keep in the destination variable. -/
def udp_pull (c : UDPHelper) (width : Nat) : UDPHelper × List Nat :=
  ({ c with receive_index := c.receive_index + width },
   bytesAt c.receive_buffer c.beyond c.receive_index width)

/-- Modelled from the spec: `udp_push` of `udp-helper.c` is missing;
`write_field(endpoint, in_buffer, width)` "appends `width` bytes to the pending
outbound datagram buffer, in call order". -/
def udp_push (c : UDPHelper) (in_buffer : List Nat) (width : Nat) : UDPHelper :=
  { c with send_buffer := c.send_buffer ++ in_buffer.take width }

/-- Modelled from the spec: `udp_transmit` of `udp-helper.c` is missing;
`send_pending(endpoint) -> byte_count` "transmits the accumulated outbound
buffer" and returns its size; the pending buffer starts empty for the next
frame. A send that fails does not return: it ends the process (`iteration`). -/
def udp_transmit (c : UDPHelper) : UDPHelper × Int :=
  ({ c with sent := c.sent ++ [c.send_buffer], send_buffer := [] },
   (c.send_buffer.length : Int))

/-- Modelled from the spec: `udp_close` of `udp-helper.c` is missing;
`close(endpoint)` releases the endpoint. -/
def udp_close (c : UDPHelper) : UDPHelper :=
  { c with closed := true }

/-! ## The local variables of `main` and the call trace -/

/-- The nine destination variables of the `udp_pull` calls of `main`. -/
inductive Field where
  | status
  | I
  | kappa_c
  | mu_c
  | rho
  | alpha
  | q_TI
  | q_BI
  | w_BI_B
  deriving DecidableEq

/-- One call made by `main`, recorded when the call begins. A `udp_pull` is
recorded with its destination, the read cursor of the endpoint at the call and
the width asked for. -/
inductive Call where
  | udp_helper (listen_port target_port respond_to_sender : Nat)
  | udp_receive
  | udp_pull (dst : Field) (offset width : Nat)
  | reuc (I kappa_c mu_c rho alpha : Nat) (q_TI q_BI : Vec4) (w_BI_B : Vec3)
  | udp_push (bytes : List Nat)
  | udp_transmit (payload : List Nat)
  | udp_close
  deriving DecidableEq

/-- The local variables of `main` (lines 22 and 29-42), with the trace of the
calls made so far. -/
structure Vars where
  comms : UDPHelper
  status : Nat
  I : Nat
  kappa_c : Nat
  mu_c : Nat
  rho : Nat
  alpha : Nat
  q_TI : Vec4
  q_BI : Vec4
  w_BI_B : Vec3
  tau_B : Vec3
  bytes_received : Int
  bytes_sent : Int
  trace : List Call

/-- Lines 22-46: the declarations with their initialisers, and the call
`udp_helper(&comms, listen_port, target_port, respond_to_sender, ...)` with
`listen_port = 2000`, `target_port = 2001`, `respond_to_sender = 1`. -/
def main_init : Vars :=
  { comms := udp_helper 2000 2001 1
    status := 0
    I := 0
    kappa_c := 0
    mu_c := 0
    rho := 0
    alpha := 0
    q_TI := ⟨0, 0, 0, 0⟩
    q_BI := ⟨0, 0, 0, 0⟩
    w_BI_B := ⟨0, 0, 0⟩
    tau_B := ⟨0, 0, 0⟩
    bytes_received := 0
    bytes_sent := 0
    trace := [Call.udp_helper 2000 2001 1] }

/-! ## The body of the loop -/

/-- Line 53: `bytes_received = udp_receive(&comms);`, when the call returns
with the datagram `t`. -/
def receive (s : Vars) (t : Tick) : Vars :=
  { s with
    comms := (udp_receive s.comms t).1
    bytes_received := (udp_receive s.comms t).2
    trace := s.trace ++ [Call.udp_receive] }

/-- A call `udp_pull(&comms, dst, width)`: the endpoint after the call, the
call recorded, and the bytes copied to the destination. -/
def pull (s : Vars) (dst : Field) (width : Nat) : Vars × List Nat :=
  ({ s with
     comms := (udp_pull s.comms width).1
     trace := s.trace ++ [Call.udp_pull dst s.comms.receive_index width] },
   (udp_pull s.comms width).2)

/-- Line 55: `udp_pull(&comms, &status, sizeof(status));`. -/
def read_status (h : Target) (s : Vars) : Vars :=
  { (pull s Field.status 8).1 with status := load h.order (pull s Field.status 8).2 }

/-- Lines 57-64: the eight `udp_pull` calls that follow the test of `status`,
with `sizeof(double) = 8`, `sizeof(q_TI) = sizeof(q_BI) = 32` and
`sizeof(w_BI_B) = 24`. -/
def read_fields (h : Target) (s : Vars) : Vars :=
  let p := pull s Field.I 8
  let s := { p.1 with I := load h.order p.2 }
  let p := pull s Field.kappa_c 8
  let s := { p.1 with kappa_c := load h.order p.2 }
  let p := pull s Field.mu_c 8
  let s := { p.1 with mu_c := load h.order p.2 }
  let p := pull s Field.rho 8
  let s := { p.1 with rho := load h.order p.2 }
  let p := pull s Field.alpha 8
  let s := { p.1 with alpha := load h.order p.2 }
  let p := pull s Field.q_TI 32
  let s := { p.1 with q_TI := loadVec4 h.order p.2 }
  let p := pull s Field.q_BI 32
  let s := { p.1 with q_BI := loadVec4 h.order p.2 }
  let p := pull s Field.w_BI_B 24
  { p.1 with w_BI_B := loadVec3 h.order p.2 }

/-- Line 68: `reuc(I, kappa_c, mu_c, rho, alpha, q_TI, q_BI, w_BI_B, tau_B);`,
which leaves the torque in `tau_B`. -/
def run_reuc (h : Target) (s : Vars) : Vars :=
  { s with
    tau_B := h.reuc s.I s.kappa_c s.mu_c s.rho s.alpha s.q_TI s.q_BI s.w_BI_B
    trace := s.trace ++
      [Call.reuc s.I s.kappa_c s.mu_c s.rho s.alpha s.q_TI s.q_BI s.w_BI_B] }

/-- Line 71: `udp_push(&comms, tau_B, sizeof(tau_B));` with
`sizeof(tau_B) = 24`. -/
def push_reply (h : Target) (s : Vars) : Vars :=
  { s with
    comms := udp_push s.comms (storeVec3 h.order s.tau_B) 24
    trace := s.trace ++ [Call.udp_push ((storeVec3 h.order s.tau_B).take 24)] }

/-- Line 72: `bytes_sent = udp_transmit(&comms);`, when the call returns. -/
def transmit (s : Vars) : Vars :=
  { s with
    comms := (udp_transmit s.comms).1
    bytes_sent := (udp_transmit s.comms).2
    trace := s.trace ++ [Call.udp_transmit s.comms.send_buffer] }

/-- How one pass through the body of the `while (1)` loop ends: at its end, at
the `break`, or inside a transport call that fails and ends the process. -/
inductive Step where
  | next (s : Vars)
  | brk (s : Vars)
  | fatal (s : Vars)

/-- Lines 53-72: one pass through the body of the loop. `status` is a
`uint64_t`, so `status <= 0` compares unsigned values. A `udp_receive` or a
`udp_transmit` that fails is recorded as called and ends the process there. -/
def iteration (h : Target) (s : Vars) (e : Event) : Step :=
  match e.tick with
  | none => Step.fatal { s with trace := s.trace ++ [Call.udp_receive] }
  | some t =>
    let s := receive s t
    let s := read_status h s
    if s.status ≤ 0 then Step.brk s
    else
      let s := read_fields h s
      let s := run_reuc h s
      let s := push_reply h s
      if e.send_ok then Step.next (transmit s)
      else Step.fatal { s with trace := s.trace ++ [Call.udp_transmit s.comms.send_buffer] }

/-- The variables at the end of a pass. -/
def Step.vars : Step → Vars
  | Step.next s => s
  | Step.brk s => s
  | Step.fatal s => s

/-- How a run of `main` ends: it returns, or it waits for ever inside
`udp_receive` for a datagram that never comes, or the process is ended by a
transport call that fails. -/
inductive Outcome where
  | returned (code : Int) (s : Vars)
  | blocked (s : Vars)
  | failed (s : Vars)

/-- How the `while (1)` loop is left, if it is. -/
inductive Halt where
  | brk
  | blocked
  | fatal
  deriving DecidableEq

/-- Lines 49-74: the `while (1)` loop, one `Event` of the environment for each
call of `udp_receive`. The result is the state at the `break`, or the state of
a run blocked in `udp_receive`, or the state at the failing transport call. -/
def main_loop (h : Target) : Vars → List Event → Vars × Halt
  | s, [] => ({ s with trace := s.trace ++ [Call.udp_receive] }, Halt.blocked)
  | s, e :: es =>
    match iteration h s e with
    | Step.brk s1 => (s1, Halt.brk)
    | Step.fatal s1 => (s1, Halt.fatal)
    | Step.next s1 => main_loop h s1 es

/-- Lines 76-79: `udp_close(&comms); ... return 0;`. -/
def tidy_up (s : Vars) : Outcome :=
  Outcome.returned 0
    { s with comms := udp_close s.comms, trace := s.trace ++ [Call.udp_close] }

/-- The loop and what follows it, from the variables `s`. -/
def main_from (h : Target) (s : Vars) (inbox : List Event) : Outcome :=
  match main_loop h s inbox with
  | (s1, Halt.brk) => tidy_up s1
  | (s1, Halt.blocked) => Outcome.blocked s1
  | (s1, Halt.fatal) => Outcome.failed s1

/-- The function `main` of `reuc_pitl.c`. -/
def main (h : Target) (inbox : List Event) : Outcome :=
  main_from h main_init inbox

/-- The variables at the end of a run. -/
def Outcome.vars : Outcome → Vars
  | Outcome.returned _ s => s
  | Outcome.blocked s => s
  | Outcome.failed s => s

/-- The status with which `main` returns, `none` for a run in which `main`
does not return. -/
def Outcome.code : Outcome → Option Int
  | Outcome.returned c _ => some c
  | Outcome.blocked _ => none
  | Outcome.failed _ => none

/-- Whether the process was ended by a transport call that failed. -/
def Outcome.isFailed : Outcome → Bool
  | Outcome.failed _ => true
  | _ => false

/-! ## Reading a trace -/

/-- Whether a call is a `udp_receive`. -/
def Call.isReceive : Call → Bool
  | Call.udp_receive => true
  | _ => false

/-- Whether a call is a `udp_transmit`. -/
def Call.isTransmit : Call → Bool
  | Call.udp_transmit _ => true
  | _ => false

/-- Whether a call is a call of the controller. -/
def Call.isReuc : Call → Bool
  | Call.reuc _ _ _ _ _ _ _ _ => true
  | _ => false

/-- Whether a call is a `udp_close`. -/
def Call.isClose : Call → Bool
  | Call.udp_close => true
  | _ => false

/-- Number of `udp_receive` calls in a trace. -/
def numReceives (tr : List Call) : Nat := tr.countP Call.isReceive

/-- Number of `udp_transmit` calls in a trace. -/
def numTransmits (tr : List Call) : Nat := tr.countP Call.isTransmit

/-- The calls of the controller in a trace, in order, with their arguments. -/
def invocations (tr : List Call) : List Call := tr.filter Call.isReuc

/-- The frames handed to `udp_transmit` in a trace, in order. -/
def transmitted (tr : List Call) : List (List Nat) :=
  tr.filterMap fun c =>
    match c with
    | Call.udp_transmit p => some p
    | _ => none

/-- The field reads of a trace, in order: destination, offset, width. -/
def pulls (tr : List Call) : List (Field × Nat × Nat) :=
  tr.filterMap fun c =>
    match c with
    | Call.udp_pull d off w => some (d, off, w)
    | _ => none

/-! ## The frame layout of the specification -/

/-- The Inbound Frame of the specification (section 3): the continue-flag, five
scalars, two quaternions and the body rate. -/
structure Frame where
  status : Nat
  I : Nat
  kappa_c : Nat
  mu_c : Nat
  rho : Nat
  alpha : Nat
  q_TI : Vec4
  q_BI : Vec4
  w_BI_B : Vec3
  deriving DecidableEq

/-- Every component of the array is a 64-bit pattern. -/
def Vec3.wf (v : Vec3) : Prop :=
  v.e0 < 2 ^ 64 ∧ v.e1 < 2 ^ 64 ∧ v.e2 < 2 ^ 64

/-- Every component of the array is a 64-bit pattern. -/
def Vec4.wf (v : Vec4) : Prop :=
  v.e0 < 2 ^ 64 ∧ v.e1 < 2 ^ 64 ∧ v.e2 < 2 ^ 64 ∧ v.e3 < 2 ^ 64

/-- Every field of the frame is a 64-bit value. -/
def Frame.wf (f : Frame) : Prop :=
  f.status < 2 ^ 64 ∧ f.I < 2 ^ 64 ∧ f.kappa_c < 2 ^ 64 ∧ f.mu_c < 2 ^ 64 ∧
  f.rho < 2 ^ 64 ∧ f.alpha < 2 ^ 64 ∧ f.q_TI.wf ∧ f.q_BI.wf ∧ f.w_BI_B.wf

/-- The wire format of the specification (section 6): the "raw concatenated
binary fields in the exact order of section 3", in the host's byte order. -/
def encodeFrame (o : ByteOrder) (f : Frame) : List Nat :=
  store o f.status ++ store o f.I ++ store o f.kappa_c ++ store o f.mu_c ++
  store o f.rho ++ store o f.alpha ++ storeVec4 o f.q_TI ++ storeVec4 o f.q_BI ++
  storeVec3 o f.w_BI_B

/-- The frame a byte string holds under the layout of section 3: widths
8, 8, 8, 8, 8, 8, 32, 32, 24, each field at the sum of the widths before it. -/
def decodeFrame (o : ByteOrder) (bs : List Nat) : Frame :=
  { status := load o (bs.take 8)
    I := load o ((bs.drop 8).take 8)
    kappa_c := load o ((bs.drop 16).take 8)
    mu_c := load o ((bs.drop 24).take 8)
    rho := load o ((bs.drop 32).take 8)
    alpha := load o ((bs.drop 40).take 8)
    q_TI := loadVec4 o ((bs.drop 48).take 32)
    q_BI := loadVec4 o ((bs.drop 80).take 32)
    w_BI_B := loadVec3 o ((bs.drop 112).take 24) }

/-- The values of the nine field variables of `main`. -/
def Vars.frame (s : Vars) : Frame :=
  { status := s.status
    I := s.I
    kappa_c := s.kappa_c
    mu_c := s.mu_c
    rho := s.rho
    alpha := s.alpha
    q_TI := s.q_TI
    q_BI := s.q_BI
    w_BI_B := s.w_BI_B }

/-- The bytes a read of `width` bytes at offset `off` finds after the receive
of the tick `t`. -/
def Tick.peek (t : Tick) (off width : Nat) : List Nat :=
  bytesAt t.data t.beyond off width

/-- The continue-flag the first read of the tick decodes. -/
def flagOf (h : Target) (t : Tick) : Nat :=
  load h.order (t.peek 0 8)

/-- The frame the nine reads find after the receive of the tick `t`; for a
datagram shorter than 136 bytes part of it comes from `t.beyond`. -/
def Tick.frame (h : Target) (t : Tick) : Frame :=
  { status := load h.order (t.peek 0 8)
    I := load h.order (t.peek 8 8)
    kappa_c := load h.order (t.peek 16 8)
    mu_c := load h.order (t.peek 24 8)
    rho := load h.order (t.peek 32 8)
    alpha := load h.order (t.peek 40 8)
    q_TI := loadVec4 h.order (t.peek 48 32)
    q_BI := loadVec4 h.order (t.peek 80 32)
    w_BI_B := loadVec3 h.order (t.peek 112 24) }

/-- The controller applied to the fields of a frame, in the order of its
parameters. -/
def Target.torque (h : Target) (f : Frame) : Vec3 :=
  h.reuc f.I f.kappa_c f.mu_c f.rho f.alpha f.q_TI f.q_BI f.w_BI_B

/-- The Outbound Frame for an Inbound Frame: the 24 bytes of the torque. -/
def Target.reply (h : Target) (f : Frame) : List Nat :=
  storeVec3 h.order (h.torque f)

/-- The call of the controller on the fields of a frame. -/
def reucCall (f : Frame) : Call :=
  Call.reuc f.I f.kappa_c f.mu_c f.rho f.alpha f.q_TI f.q_BI f.w_BI_B

/-- The nine field reads of one tick: destination, offset, width. -/
def framePulls : List (Field × Nat × Nat) :=
  [(Field.status, 0, 8), (Field.I, 8, 8), (Field.kappa_c, 16, 8), (Field.mu_c, 24, 8),
   (Field.rho, 32, 8), (Field.alpha, 40, 8), (Field.q_TI, 48, 32), (Field.q_BI, 80, 32),
   (Field.w_BI_B, 112, 24)]

/-- The calls of one pass through the loop that reads the frame `f` and does
not break. -/
def tickCalls (h : Target) (f : Frame) : List Call :=
  [Call.udp_receive,
   Call.udp_pull Field.status 0 8,
   Call.udp_pull Field.I 8 8,
   Call.udp_pull Field.kappa_c 16 8,
   Call.udp_pull Field.mu_c 24 8,
   Call.udp_pull Field.rho 32 8,
   Call.udp_pull Field.alpha 40 8,
   Call.udp_pull Field.q_TI 48 32,
   Call.udp_pull Field.q_BI 80 32,
   Call.udp_pull Field.w_BI_B 112 24,
   reucCall f,
   Call.udp_push (h.reply f),
   Call.udp_transmit (h.reply f)]

/-- The calls of the passes through the loop for a list of ticks none of which
breaks the loop. -/
def ticksCalls (h : Target) : List Tick → List Call
  | [] => []
  | t :: ts => tickCalls h (t.frame h) ++ ticksCalls h ts

/-- A full-length Inbound Frame whose continue-flag is greater than zero. -/
def FullFrame (h : Target) (t : Tick) : Prop :=
  t.data.length = 136 ∧ 0 < load h.order (t.data.take 8)

/-- The events at which the datagrams of a list arrive one after the other and
are answered without a transport failure. -/
def arrivals (ts : List Tick) : List Event :=
  ts.map Event.arrival

/-- A datagram with zero bytes past its end. -/
def datagram (bs : List Nat) : Tick :=
  { data := bs, beyond := fun _ => 0 }

/-! ## States of the loop -/

/-- The variables after a pass through the loop that reads all nine fields and
in which no transport call fails: lines 53-72 without the `break`. -/
def passOf (h : Target) (s : Vars) (t : Tick) : Vars :=
  transmit (push_reply h (run_reuc h (read_fields h (read_status h (receive s t)))))

/-- The variables after one such pass for each tick of a list. -/
def passesOf (h : Target) : Vars → List Tick → Vars
  | s, [] => s
  | s, t :: ts => passesOf h (passOf h s t) ts

/-- The states in which `main` can be at the head of the `while (1)` loop: the
state after the initialisation, and the state after a pass that did not break
from such a state. -/
inductive LoopHead (h : Target) : Vars → Prop where
  | init : LoopHead h main_init
  | step (s s1 : Vars) (e : Event) :
      LoopHead h s → iteration h s e = Step.next s1 → LoopHead h s1

/-- Whether a pass ended at the `break`. -/
def Step.isBrk : Step → Bool
  | Step.brk _ => true
  | Step.next _ => false
  | Step.fatal _ => false

/-- Whether a trace pairs its transport calls: every `udp_receive` is made with
no frame awaiting its reply, every `udp_transmit` with one. `pending` tells
whether a frame awaits its reply at the start of the trace. -/
def paired : Bool → List Call → Bool
  | _, [] => true
  | false, Call.udp_receive :: tr => paired true tr
  | true, Call.udp_receive :: _ => false
  | true, Call.udp_transmit _ :: tr => paired false tr
  | false, Call.udp_transmit _ :: _ => false
  | b, Call.udp_helper _ _ _ :: tr => paired b tr
  | b, Call.udp_pull _ _ _ :: tr => paired b tr
  | b, Call.reuc _ _ _ _ _ _ _ _ :: tr => paired b tr
  | b, Call.udp_push _ :: tr => paired b tr
  | b, Call.udp_close :: tr => paired b tr

/-! ## Sample inputs -/

/-- A sample target: a little-endian host and a controller that combines a few
of its inputs. -/
def sampleTarget : Target :=
  { order := ByteOrder.little
    reuc := fun I kappa_c _ _ _ q_TI q_BI w_BI_B =>
      ⟨I + q_TI.e0, kappa_c + q_BI.e3, w_BI_B.e2⟩ }

/-- A sample frame with continue-flag 1. -/
def sampleFrame : Frame :=
  { status := 1, I := 2, kappa_c := 3, mu_c := 4, rho := 5, alpha := 6
    q_TI := ⟨7, 8, 9, 10⟩, q_BI := ⟨11, 12, 13, 14⟩, w_BI_B := ⟨15, 16, 2 ^ 63⟩ }

/-- A second sample frame, with continue-flag 2. -/
def sampleFrame2 : Frame :=
  { status := 2, I := 20, kappa_c := 30, mu_c := 40, rho := 50, alpha := 60
    q_TI := ⟨70, 80, 90, 100⟩, q_BI := ⟨110, 120, 130, 140⟩, w_BI_B := ⟨150, 160, 170⟩ }

/-- The first sample frame as a datagram received without failure. -/
def sampleTick : Tick :=
  datagram (encodeFrame ByteOrder.little sampleFrame)

/-- The second sample frame as a datagram received without failure. -/
def sampleTick2 : Tick :=
  datagram (encodeFrame ByteOrder.little sampleFrame2)

/-- A full-length frame whose continue-flag has only its top bit set: the
stored value is `2 ^ 63`, the most negative signed 64-bit integer. -/
def negativeTick : Tick :=
  datagram (encodeFrame ByteOrder.little { sampleFrame with status := 2 ^ 63 })

/-- A datagram of 8 bytes only: a continue-flag of 1 and no other field. -/
def shortTick : Tick :=
  datagram (store ByteOrder.little 1)

/-- The terminating datagram: the 8 bytes of a continue-flag of 0. -/
def stopTick : Tick :=
  datagram (store ByteOrder.little 0)

instance (h : Target) (t : Tick) : Decidable (FullFrame h t) := by
  unfold FullFrame
  infer_instance

instance (f : Frame) : Decidable f.wf := by
  unfold Frame.wf Vec4.wf Vec3.wf
  infer_instance

/-! ## Bytes and values -/

theorem length_storeLE (n v : Nat) : (storeLE n v).length = n := by
  induction n generalizing v with
  | zero => rfl
  | succ n ih => simp [storeLE, ih]

theorem loadLE_storeLE (n v : Nat) : loadLE (storeLE n v) = v % 256 ^ n := by
  induction n generalizing v with
  | zero => simp [storeLE, loadLE, Nat.mod_one]
  | succ n ih =>
    simp only [storeLE, loadLE, ih, Nat.mod_mod]
    rw [pow_succ', Nat.mod_mul]

theorem length_store (o : ByteOrder) (v : Nat) : (store o v).length = 8 := by
  cases o <;> simp [store, length_storeLE]

theorem load_store (o : ByteOrder) (v : Nat) (hv : v < 2 ^ 64) : load o (store o v) = v := by
  have h : loadLE (storeLE 8 v) = v := by
    rw [loadLE_storeLE]
    exact Nat.mod_eq_of_lt (by norm_num at hv ⊢; exact hv)
  cases o <;> simp [load, store, h]

theorem loadLE_lt (bs : List Nat) : loadLE bs < 256 ^ bs.length := by
  induction bs with
  | nil => simp [loadLE]
  | cons b bs ih =>
    simp only [loadLE, List.length_cons, pow_succ]
    have := Nat.mod_lt b (by norm_num : 0 < 256)
    omega

theorem bytesAt_eq_take_drop (buf : List Nat) (beyond : Nat → Nat) (off w : Nat)
    (hb : off + w ≤ buf.length) : bytesAt buf beyond off w = (buf.drop off).take w := by
  apply List.ext_getElem
  · simp [bytesAt]; omega
  · intro i h1 h2
    simp [bytesAt] at h1 ⊢
    rw [List.getElem?_eq_getElem (by omega)]
    rfl

theorem length_bytesAt (buf : List Nat) (beyond : Nat → Nat) (off w : Nat) :
    (bytesAt buf beyond off w).length = w := by
  simp [bytesAt]

theorem length_storeVec3 (o : ByteOrder) (v : Vec3) : (storeVec3 o v).length = 24 := by
  simp [storeVec3, length_store]

theorem length_storeVec4 (o : ByteOrder) (v : Vec4) : (storeVec4 o v).length = 32 := by
  simp [storeVec4, length_store]

theorem take_storeVec3 (o : ByteOrder) (v : Vec3) : (storeVec3 o v).take 24 = storeVec3 o v :=
  List.take_of_length_le (by rw [length_storeVec3])

theorem length_reply (h : Target) (f : Frame) : (h.reply f).length = 24 :=
  length_storeVec3 _ _

/-! ## One pass through the loop -/

theorem status_read (h : Target) (s : Vars) (t : Tick) :
    (read_status h (receive s t)).status = flagOf h t := by
  simp [read_status, receive, pull, udp_pull, udp_receive, flagOf, Tick.peek]

theorem iteration_of_pos (h : Target) (s : Vars) (t : Tick) (hf : 0 < flagOf h t) :
    iteration h s (Event.arrival t) = Step.next (passOf h s t) := by
  have := status_read h s t
  simp only [iteration, passOf, Event.tick, Event.send_ok]
  rw [if_neg (by omega)]
  rfl

theorem iteration_of_zero (h : Target) (s : Vars) (t : Tick) (hf : flagOf h t = 0) :
    iteration h s (Event.arrival t) = Step.brk (read_status h (receive s t)) := by
  have := status_read h s t
  simp only [iteration, Event.tick]
  rw [if_pos (by omega)]

theorem iteration_recv_failure (h : Target) (s : Vars) :
    iteration h s Event.recv_failure =
      Step.fatal { s with trace := s.trace ++ [Call.udp_receive] } := rfl

theorem iteration_send_failure_of_zero (h : Target) (s : Vars) (t : Tick)
    (hf : flagOf h t = 0) :
    iteration h s (Event.send_failure t) = Step.brk (read_status h (receive s t)) := by
  have := status_read h s t
  simp only [iteration, Event.tick]
  rw [if_pos (by omega)]

theorem iteration_send_failure_of_pos (h : Target) (s : Vars) (t : Tick)
    (hf : 0 < flagOf h t) :
    iteration h s (Event.send_failure t) =
      Step.fatal { passOf h s t with
        comms := (push_reply h (run_reuc h (read_fields h (read_status h (receive s t))))).comms
        bytes_sent := s.bytes_sent } := by
  have := status_read h s t
  simp only [iteration, Event.tick, Event.send_ok]
  rw [if_neg (by omega)]
  rfl

theorem failed_send_trace (h : Target) (s : Vars) (t : Tick) (hs : s.comms.send_buffer = []) :
    ({ passOf h s t with
        comms := (push_reply h (run_reuc h (read_fields h (read_status h (receive s t))))).comms
        bytes_sent := s.bytes_sent } : Vars).trace = s.trace ++ tickCalls h (t.frame h) := by
  simp [passOf, transmit, push_reply, run_reuc, read_fields, read_status, receive, pull,
    udp_pull, udp_receive, udp_push, tickCalls, Tick.frame, Tick.peek, reucCall, hs,
    Target.reply, Target.torque, take_storeVec3]

theorem passOf_trace (h : Target) (s : Vars) (t : Tick) (hs : s.comms.send_buffer = []) :
    (passOf h s t).trace = s.trace ++ tickCalls h (t.frame h) := by
  simp [passOf, transmit, push_reply, run_reuc, read_fields, read_status, receive, pull,
    udp_pull, udp_receive, udp_push, tickCalls, Tick.frame, Tick.peek, reucCall, hs,
    Target.reply, Target.torque, take_storeVec3]

theorem passOf_send_buffer (h : Target) (s : Vars) (t : Tick) :
    (passOf h s t).comms.send_buffer = [] := by
  simp [passOf, transmit, udp_transmit]

theorem passOf_sent (h : Target) (s : Vars) (t : Tick) (hs : s.comms.send_buffer = []) :
    (passOf h s t).comms.sent = s.comms.sent ++ [h.reply (t.frame h)] := by
  simp [passOf, transmit, udp_transmit, push_reply, run_reuc, read_fields, read_status,
    receive, pull, udp_pull, udp_receive, udp_push, Tick.frame, Tick.peek, hs,
    Target.reply, Target.torque, take_storeVec3]

theorem passOf_frame (h : Target) (s : Vars) (t : Tick) :
    (passOf h s t).frame = t.frame h := by
  simp [passOf, transmit, push_reply, run_reuc, read_fields, read_status, receive, pull,
    udp_pull, udp_receive, Tick.frame, Tick.peek, Vars.frame]

theorem reads_frame (h : Target) (s : Vars) (t : Tick) :
    (read_fields h (read_status h (receive s t))).frame = t.frame h := by
  simp [read_fields, read_status, receive, pull, udp_pull, udp_receive, Tick.frame,
    Tick.peek, Vars.frame]

theorem passOf_tau_B (h : Target) (s : Vars) (t : Tick) :
    (passOf h s t).tau_B = h.torque (t.frame h) := by
  simp [passOf, transmit, push_reply, run_reuc, read_fields, read_status, receive, pull,
    udp_pull, udp_receive, Tick.frame, Tick.peek, Target.torque]

theorem passOf_receive_index (h : Target) (s : Vars) (t : Tick) :
    (passOf h s t).comms.receive_index = 136 := by
  simp [passOf, transmit, udp_transmit, push_reply, udp_push, run_reuc, read_fields,
    read_status, receive, pull, udp_pull, udp_receive]

theorem brk_trace (h : Target) (s : Vars) (t : Tick) :
    (read_status h (receive s t)).trace =
      s.trace ++ [Call.udp_receive, Call.udp_pull Field.status 0 8] := by
  simp [read_status, receive, pull, udp_pull, udp_receive]

theorem loopHead_send_buffer (h : Target) (s : Vars) (hs : LoopHead h s) :
    s.comms.send_buffer = [] := by
  induction hs with
  | init => rfl
  | step s s1 e _ hstep _ =>
    cases e with
    | recv_failure =>
      rw [iteration_recv_failure] at hstep
      cases hstep
    | arrival t =>
      by_cases hf : flagOf h t = 0
      · rw [iteration_of_zero h s t hf] at hstep
        cases hstep
      · rw [iteration_of_pos h s t (Nat.pos_of_ne_zero hf)] at hstep
        cases hstep
        exact passOf_send_buffer h s t
    | send_failure t =>
      by_cases hf : flagOf h t = 0
      · rw [iteration_send_failure_of_zero h s t hf] at hstep
        cases hstep
      · rw [iteration_send_failure_of_pos h s t (Nat.pos_of_ne_zero hf)] at hstep
        cases hstep

/-! ## The layout of a full-length frame -/

theorem peek_eq_take_drop (t : Tick) (off w : Nat) (hb : off + w ≤ t.data.length) :
    t.peek off w = (t.data.drop off).take w :=
  bytesAt_eq_take_drop _ _ _ _ hb

theorem frame_eq_decode (h : Target) (t : Tick) (hl : t.data.length = 136) :
    t.frame h = decodeFrame h.order t.data := by
  simp only [Tick.frame, decodeFrame]
  rw [peek_eq_take_drop t 0 8 (by omega), peek_eq_take_drop t 8 8 (by omega),
    peek_eq_take_drop t 16 8 (by omega), peek_eq_take_drop t 24 8 (by omega),
    peek_eq_take_drop t 32 8 (by omega), peek_eq_take_drop t 40 8 (by omega),
    peek_eq_take_drop t 48 32 (by omega), peek_eq_take_drop t 80 32 (by omega),
    peek_eq_take_drop t 112 24 (by omega)]
  simp

theorem flagOf_eq (h : Target) (t : Tick) (hl : 8 ≤ t.data.length) :
    flagOf h t = load h.order (t.data.take 8) := by
  simp only [flagOf]
  rw [peek_eq_take_drop t 0 8 (by omega)]
  simp

theorem flagOf_pos_of_full (h : Target) (t : Tick) (hfull : FullFrame h t) :
    0 < flagOf h t := by
  rw [flagOf_eq h t (by rw [hfull.1]; omega)]
  exact hfull.2

theorem load_lt (o : ByteOrder) (bs : List Nat) : load o bs < 256 ^ bs.length := by
  cases o
  · exact loadLE_lt bs
  · have := loadLE_lt bs.reverse
    rwa [List.length_reverse] at this

theorem flagOf_lt (h : Target) (t : Tick) : flagOf h t < 2 ^ 64 := by
  have h1 : (t.peek 0 8).length = 8 := by simp [Tick.peek, length_bytesAt]
  have h2 := load_lt h.order (t.peek 0 8)
  rw [h1] at h2
  have h3 : (256 : Nat) ^ 8 = 2 ^ 64 := by norm_num
  rw [h3] at h2
  exact h2

/-! ## Runs of the loop -/

theorem main_loop_append (h : Target) (pre : List Tick) (s : Vars) (rest : List Event)
    (hpre : ∀ t ∈ pre, 0 < flagOf h t) :
    main_loop h s (arrivals pre ++ rest) = main_loop h (passesOf h s pre) rest := by
  induction pre generalizing s with
  | nil => rfl
  | cons t ts ih =>
    have ht : 0 < flagOf h t := hpre t (List.mem_cons_self _ _)
    simp only [arrivals, List.map_cons, List.cons_append, main_loop,
      iteration_of_pos h s t ht, passesOf]
    exact ih _ (fun u hu => hpre u (List.mem_cons_of_mem _ hu))

theorem passesOf_send_buffer (h : Target) (pre : List Tick) (s : Vars)
    (hs : s.comms.send_buffer = []) : (passesOf h s pre).comms.send_buffer = [] := by
  induction pre generalizing s with
  | nil => exact hs
  | cons t ts ih => exact ih _ (passOf_send_buffer h s t)

theorem passesOf_trace (h : Target) (pre : List Tick) (s : Vars)
    (hs : s.comms.send_buffer = []) :
    (passesOf h s pre).trace = s.trace ++ ticksCalls h pre := by
  induction pre generalizing s with
  | nil => simp [passesOf, ticksCalls]
  | cons t ts ih =>
    simp only [passesOf, ticksCalls]
    rw [ih _ (passOf_send_buffer h s t), passOf_trace h s t hs, List.append_assoc]

theorem passesOf_sent (h : Target) (pre : List Tick) (s : Vars)
    (hs : s.comms.send_buffer = []) :
    (passesOf h s pre).comms.sent = s.comms.sent ++ pre.map fun t => h.reply (t.frame h) := by
  induction pre generalizing s with
  | nil => simp [passesOf]
  | cons t ts ih =>
    simp only [passesOf, List.map_cons]
    rw [ih _ (passOf_send_buffer h s t), passOf_sent h s t hs, List.append_assoc]
    rfl

theorem main_loop_zero (h : Target) (s : Vars) (t : Tick) (rest : List Event)
    (hf : flagOf h t = 0) :
    main_loop h s (Event.arrival t :: rest) = (read_status h (receive s t), Halt.brk) := by
  simp only [main_loop, iteration_of_zero h s t hf]

theorem main_loop_recv_failure (h : Target) (s : Vars) (rest : List Event) :
    main_loop h s (Event.recv_failure :: rest) =
      ({ s with trace := s.trace ++ [Call.udp_receive] }, Halt.fatal) := by
  simp only [main_loop, iteration_recv_failure]

theorem main_loop_send_failure (h : Target) (s : Vars) (t : Tick) (rest : List Event)
    (hf : 0 < flagOf h t) :
    main_loop h s (Event.send_failure t :: rest) =
      ({ passOf h s t with
          comms :=
            (push_reply h (run_reuc h (read_fields h (read_status h (receive s t))))).comms
          bytes_sent := s.bytes_sent }, Halt.fatal) := by
  simp only [main_loop, iteration_send_failure_of_pos h s t hf]

theorem main_loop_send_failure_zero (h : Target) (s : Vars) (t : Tick) (rest : List Event)
    (hf : flagOf h t = 0) :
    main_loop h s (Event.send_failure t :: rest) =
      (read_status h (receive s t), Halt.brk) := by
  simp only [main_loop, iteration_send_failure_of_zero h s t hf]

theorem numReceives_ticksCalls (h : Target) (ts : List Tick) :
    numReceives (ticksCalls h ts) = ts.length := by
  induction ts with
  | nil => rfl
  | cons t ts ih =>
    simp only [ticksCalls, numReceives, List.countP_append, List.length_cons] at ih ⊢
    rw [ih]
    simp [tickCalls, reucCall, Call.isReceive, List.countP_cons]
    omega

theorem numTransmits_ticksCalls (h : Target) (ts : List Tick) :
    numTransmits (ticksCalls h ts) = ts.length := by
  induction ts with
  | nil => rfl
  | cons t ts ih =>
    simp only [ticksCalls, numTransmits, List.countP_append, List.length_cons] at ih ⊢
    rw [ih]
    simp [tickCalls, reucCall, Call.isTransmit, List.countP_cons]
    omega

theorem invocations_ticksCalls (h : Target) (ts : List Tick) :
    invocations (ticksCalls h ts) = ts.map fun t => reucCall (t.frame h) := by
  induction ts with
  | nil => rfl
  | cons t ts ih =>
    simp only [ticksCalls, invocations, List.filter_append, List.map_cons] at ih ⊢
    rw [ih]
    simp [tickCalls, reucCall, Call.isReuc, List.filter_cons]

theorem transmitted_ticksCalls (h : Target) (ts : List Tick) :
    transmitted (ticksCalls h ts) = ts.map fun t => h.reply (t.frame h) := by
  induction ts with
  | nil => rfl
  | cons t ts ih =>
    simp only [ticksCalls, transmitted, List.filterMap_append, List.map_cons] at ih ⊢
    rw [ih]
    simp [tickCalls, reucCall, List.filterMap_cons]

theorem map_frame_full (h : Target) (ts : List Tick) (hts : ∀ t ∈ ts, FullFrame h t)
    {α : Type} (g : Frame → α) :
    (ts.map fun t => g (t.frame h)) = ts.map fun t => g (decodeFrame h.order t.data) := by
  apply List.map_congr_left
  intro t ht
  rw [frame_eq_decode h t (hts t ht).1]

/-! ## Claims -/

theorem main_run (h : Target) (pre : List Tick) (t : Tick) (rest : List Event)
    (hpre : ∀ u ∈ pre, 0 < flagOf h u) (hf : flagOf h t = 0) :
    main h (arrivals pre ++ Event.arrival t :: rest) =
      tidy_up (read_status h (receive (passesOf h main_init pre) t)) := by
  simp only [main, main_from, main_loop_append h pre main_init (Event.arrival t :: rest) hpre,
    main_loop_zero h _ t rest hf]

theorem main_run_trace (h : Target) (pre : List Tick) (t : Tick) (rest : List Event)
    (hpre : ∀ u ∈ pre, 0 < flagOf h u) (hf : flagOf h t = 0) :
    (main h (arrivals pre ++ Event.arrival t :: rest)).vars.trace =
      Call.udp_helper 2000 2001 1 :: (ticksCalls h pre ++
        [Call.udp_receive, Call.udp_pull Field.status 0 8, Call.udp_close]) := by
  rw [main_run h pre t rest hpre hf]
  simp only [tidy_up, Outcome.vars, brk_trace, passesOf_trace h pre main_init rfl]
  simp [main_init]

theorem main_run_sent (h : Target) (pre : List Tick) (t : Tick) (rest : List Event)
    (hpre : ∀ u ∈ pre, 0 < flagOf h u) (hf : flagOf h t = 0) :
    (main h (arrivals pre ++ Event.arrival t :: rest)).vars.comms.sent =
      (passesOf h main_init pre).comms.sent := by
  rw [main_run h pre t rest hpre hf]
  simp [tidy_up, Outcome.vars, udp_close, read_status, receive, pull, udp_pull, udp_receive]

/-- C1: for a stream of `n` full-length frames with continue-flag greater than
zero followed by a datagram whose continue-flag is 0, `main` returns 0 after
exactly `n + 1` receives, `n` calls of the controller and `n` transmits; the
`i`-th call of the controller is on the fields of the `i`-th frame and the
`i`-th frame transmitted is the reply to the `i`-th frame received; these
replies are what the network got, in that order. -/
theorem C1_one_reply_per_frame_in_order (h : Target) (frames : List Tick) (last : Tick)
    (rest : List Event) (hframes : ∀ t ∈ frames, FullFrame h t) (hlast : flagOf h last = 0) :
    (main h (arrivals frames ++ Event.arrival last :: rest)).code = some 0 ∧
    numReceives (main h (arrivals frames ++ Event.arrival last :: rest)).vars.trace = frames.length + 1 ∧
    (invocations (main h (arrivals frames ++ Event.arrival last :: rest)).vars.trace).length = frames.length ∧
    numTransmits (main h (arrivals frames ++ Event.arrival last :: rest)).vars.trace = frames.length ∧
    invocations (main h (arrivals frames ++ Event.arrival last :: rest)).vars.trace =
      frames.map (fun t => reucCall (decodeFrame h.order t.data)) ∧
    transmitted (main h (arrivals frames ++ Event.arrival last :: rest)).vars.trace =
      frames.map (fun t => h.reply (decodeFrame h.order t.data)) ∧
    (main h (arrivals frames ++ Event.arrival last :: rest)).vars.comms.sent =
      frames.map (fun t => h.reply (decodeFrame h.order t.data)) := by
  have hpre : ∀ u ∈ frames, 0 < flagOf h u := fun u hu => flagOf_pos_of_full h u (hframes u hu)
  have htr := main_run_trace h frames last rest hpre hlast
  have hinv : invocations (main h (arrivals frames ++ Event.arrival last :: rest)).vars.trace =
      frames.map (fun t => reucCall (decodeFrame h.order t.data)) := by
    rw [htr, ← map_frame_full h frames hframes reucCall, ← invocations_ticksCalls]
    simp [invocations, List.filter_cons, List.filter_append, Call.isReuc]
  refine ⟨?_, ?_, ?_, ?_, hinv, ?_, ?_⟩
  · rw [main_run h frames last rest hpre hlast]
    rfl
  · rw [htr]
    simp only [numReceives, List.countP_cons, List.countP_append]
    have := numReceives_ticksCalls h frames
    simp only [numReceives] at this
    rw [this]
    simp [Call.isReceive]
  · rw [hinv, List.length_map]
  · rw [htr]
    simp only [numTransmits, List.countP_cons, List.countP_append]
    have := numTransmits_ticksCalls h frames
    simp only [numTransmits] at this
    rw [this]
    simp [Call.isTransmit]
  · rw [htr, ← map_frame_full h frames hframes h.reply, ← transmitted_ticksCalls]
    simp [transmitted, List.filterMap_cons, List.filterMap_append]
  · rw [main_run_sent h frames last rest hpre hlast, passesOf_sent h frames main_init rfl,
      map_frame_full h frames hframes h.reply]
    simp [main_init, udp_helper]

set_option maxRecDepth 100000 in
theorem C1_witness :
    (∀ t ∈ [sampleTick, sampleTick2], FullFrame sampleTarget t) ∧
    flagOf sampleTarget stopTick = 0 ∧
    numReceives (main sampleTarget (arrivals [sampleTick, sampleTick2] ++ Event.arrival stopTick :: [])).vars.trace
      = [sampleTick, sampleTick2].length + 1 ∧
    transmitted (main sampleTarget (arrivals [sampleTick, sampleTick2] ++ Event.arrival stopTick :: [])).vars.trace
      = [sampleTick, sampleTick2].map
          (fun t => sampleTarget.reply (decodeFrame sampleTarget.order t.data)) :=
  ⟨by decide, by decide,
   (C1_one_reply_per_frame_in_order sampleTarget [sampleTick, sampleTick2] stopTick []
      (by decide) (by decide)).2.1,
   (C1_one_reply_per_frame_in_order sampleTarget [sampleTick, sampleTick2] stopTick []
      (by decide) (by decide)).2.2.2.2.2.1⟩

theorem closes_ticksCalls (h : Target) (ts : List Tick) :
    (ticksCalls h ts).filter Call.isClose = [] := by
  induction ts with
  | nil => rfl
  | cons t ts ih =>
    simp only [ticksCalls, List.filter_append, ih]
    simp [tickCalls, reucCall, Call.isClose, List.filter_cons]

theorem flagOf_zero_of_bytes (h : Target) (t : Tick) (hlen : 8 ≤ t.data.length)
    (hzero : load h.order (t.data.take 8) = 0) : flagOf h t = 0 := by
  rw [flagOf_eq h t hlen]
  exact hzero

/-- C2: a datagram whose first 8 bytes decode to a continue-flag of 0 ends the
loop in the pass that receives it, whatever the variables hold at that point:
the only field read is the continue-flag, the controller is not called, nothing
is pushed or transmitted, no field variable other than `status` changes, the
datagrams after it are never received, `udp_close` is called, and `main`
returns 0. In a whole run of `main` that reaches the datagram, `udp_close` is
called exactly once, as the last call, and only the earlier frames get a reply. -/
theorem C2_zero_flag_ends_the_run (h : Target) (s : Vars) (t : Tick) (rest : List Event)
    (hlen : 8 ≤ t.data.length) (hzero : load h.order (t.data.take 8) = 0) :
    ((main_from h s (Event.arrival t :: rest)).code = some 0 ∧
     (main_from h s (Event.arrival t :: rest)).vars.trace =
       s.trace ++ [Call.udp_receive, Call.udp_pull Field.status 0 8, Call.udp_close] ∧
     (main_from h s (Event.arrival t :: rest)).vars.status = 0 ∧
     (main_from h s (Event.arrival t :: rest)).vars.comms.sent = s.comms.sent ∧
     (main_from h s (Event.arrival t :: rest)).vars.comms.send_buffer = s.comms.send_buffer ∧
     (main_from h s (Event.arrival t :: rest)).vars.comms.closed = true ∧
     (main_from h s (Event.arrival t :: rest)).vars.I = s.I ∧
     (main_from h s (Event.arrival t :: rest)).vars.kappa_c = s.kappa_c ∧
     (main_from h s (Event.arrival t :: rest)).vars.mu_c = s.mu_c ∧
     (main_from h s (Event.arrival t :: rest)).vars.rho = s.rho ∧
     (main_from h s (Event.arrival t :: rest)).vars.alpha = s.alpha ∧
     (main_from h s (Event.arrival t :: rest)).vars.q_TI = s.q_TI ∧
     (main_from h s (Event.arrival t :: rest)).vars.q_BI = s.q_BI ∧
     (main_from h s (Event.arrival t :: rest)).vars.w_BI_B = s.w_BI_B ∧
     (main_from h s (Event.arrival t :: rest)).vars.tau_B = s.tau_B) ∧
    (∀ pre : List Tick, (∀ u ∈ pre, 0 < flagOf h u) →
      (main h (arrivals pre ++ Event.arrival t :: rest)).code = some 0 ∧
      (main h (arrivals pre ++ Event.arrival t :: rest)).vars.trace =
        Call.udp_helper 2000 2001 1 :: (ticksCalls h pre ++
          [Call.udp_receive, Call.udp_pull Field.status 0 8, Call.udp_close]) ∧
      numReceives (main h (arrivals pre ++ Event.arrival t :: rest)).vars.trace = pre.length + 1 ∧
      (main h (arrivals pre ++ Event.arrival t :: rest)).vars.trace.filter Call.isClose = [Call.udp_close] ∧
      transmitted (main h (arrivals pre ++ Event.arrival t :: rest)).vars.trace =
        pre.map (fun u => h.reply (u.frame h))) := by
  have hf : flagOf h t = 0 := flagOf_zero_of_bytes h t hlen hzero
  have hrun : main_from h s (Event.arrival t :: rest) = tidy_up (read_status h (receive s t)) := by
    simp only [main_from, main_loop_zero h s t rest hf]
  have hst := status_read h s t
  constructor
  · rw [hrun]
    refine ⟨rfl, ?_, ?_, ?_, ?_, ?_, ?_, ?_, ?_, ?_, ?_, ?_, ?_, ?_, ?_⟩
    · simp only [tidy_up, Outcome.vars, brk_trace]
      simp
    · simp only [tidy_up, Outcome.vars, hst, hf]
    all_goals simp [tidy_up, Outcome.vars, udp_close, read_status, receive, pull, udp_pull,
      udp_receive]
  · intro pre hpre
    have htr := main_run_trace h pre t rest hpre hf
    refine ⟨?_, htr, ?_, ?_, ?_⟩
    · rw [main_run h pre t rest hpre hf]
      rfl
    · rw [htr]
      simp only [numReceives, List.countP_cons, List.countP_append]
      have := numReceives_ticksCalls h pre
      simp only [numReceives] at this
      rw [this]
      simp [Call.isReceive]
    · rw [htr]
      simp [List.filter_cons, List.filter_append, closes_ticksCalls, Call.isClose]
    · rw [htr, ← transmitted_ticksCalls]
      simp [transmitted, List.filterMap_cons, List.filterMap_append]

set_option maxRecDepth 100000 in
theorem C2_witness :
    8 ≤ stopTick.data.length ∧ load sampleTarget.order (stopTick.data.take 8) = 0 ∧
    (main_from sampleTarget main_init
      (Event.arrival stopTick :: [Event.arrival sampleTick])).vars.trace =
      main_init.trace ++ [Call.udp_receive, Call.udp_pull Field.status 0 8, Call.udp_close] :=
  ⟨by decide, by decide,
   (C2_zero_flag_ends_the_run sampleTarget main_init stopTick [Event.arrival sampleTick]
      (by decide) (by decide)).1.2.1⟩

/-- C3: a pass through the loop reads the continue-flag first, 8 bytes at
offset 0, and reads nothing else when the flag is 0; when the flag is greater
than zero it then reads `I`, `kappa_c`, `mu_c`, `rho`, `alpha`, `q_TI`, `q_BI`
and `w_BI_B`, in that order, with widths 8, 8, 8, 8, 8, 32, 32 and 24. Each
read starts at the sum of the widths read before it, and the nine reads
consume 136 bytes. -/
theorem C3_field_reads_in_layout_order (h : Target) (s : Vars) (t : Tick) :
    pulls ((iteration h s (Event.arrival t)).vars.trace.drop s.trace.length) =
      (if flagOf h t = 0 then [(Field.status, 0, 8)]
       else [(Field.status, 0, 8), (Field.I, 8, 8), (Field.kappa_c, 16, 8),
         (Field.mu_c, 24, 8), (Field.rho, 32, 8), (Field.alpha, 40, 8),
         (Field.q_TI, 48, 32), (Field.q_BI, 80, 32), (Field.w_BI_B, 112, 24)]) ∧
    (iteration h s (Event.arrival t)).vars.comms.receive_index = (if flagOf h t = 0 then 8 else 136) ∧
    (iteration h s (Event.arrival t)).vars.status = flagOf h t ∧
    (Step.isBrk (iteration h s (Event.arrival t)) = true ↔ flagOf h t = 0) ∧
    (∀ k, k < framePulls.length →
      (framePulls.map fun p => p.2.1)[k]? =
        some ((framePulls.take k).map fun p => p.2.2).sum) ∧
    (framePulls.map fun p => p.2.2).sum = 136 := by
  refine ⟨?_, ?_, ?_, ?_, by decide, by decide⟩
  · by_cases hf : flagOf h t = 0
    · rw [iteration_of_zero h s t hf, if_pos hf]
      simp [Step.vars, brk_trace, pulls]
    · rw [iteration_of_pos h s t (Nat.pos_of_ne_zero hf), if_neg hf]
      simp [Step.vars, passOf, transmit, push_reply, run_reuc, read_fields, read_status,
        receive, pull, udp_pull, udp_receive, pulls]
  · by_cases hf : flagOf h t = 0
    · rw [iteration_of_zero h s t hf, if_pos hf]
      simp [Step.vars, read_status, receive, pull, udp_pull, udp_receive]
    · rw [iteration_of_pos h s t (Nat.pos_of_ne_zero hf), if_neg hf]
      exact passOf_receive_index h s t
  · by_cases hf : flagOf h t = 0
    · rw [iteration_of_zero h s t hf]
      exact status_read h s t
    · rw [iteration_of_pos h s t (Nat.pos_of_ne_zero hf)]
      have := passOf_frame h s t
      have h1 : (passOf h s t).frame.status = (t.frame h).status := by rw [this]
      exact h1
  · by_cases hf : flagOf h t = 0
    · rw [iteration_of_zero h s t hf]
      simp [Step.isBrk, hf]
    · rw [iteration_of_pos h s t (Nat.pos_of_ne_zero hf)]
      simp [Step.isBrk, hf]

/-- C4: at the head of the loop, a full-length frame with continue-flag greater
than zero makes the pass call the controller once, after the nine field reads,
on the fields decoded from the frame in the order `I`, `kappa_c`, `mu_c`,
`rho`, `alpha`, `q_TI`, `q_BI`, `w_BI_B`; the torque it returns is left in
`tau_B`, and its 24 bytes are the one field pushed and the whole frame
transmitted, which the network gets. -/
theorem C4_reply_is_the_controller_torque (h : Target) (s : Vars) (t : Tick)
    (hs : LoopHead h s) (hfull : FullFrame h t) :
    ∃ s1, iteration h s (Event.arrival t) = Step.next s1 ∧
      s1.trace = s.trace ++
        [Call.udp_receive,
         Call.udp_pull Field.status 0 8,
         Call.udp_pull Field.I 8 8,
         Call.udp_pull Field.kappa_c 16 8,
         Call.udp_pull Field.mu_c 24 8,
         Call.udp_pull Field.rho 32 8,
         Call.udp_pull Field.alpha 40 8,
         Call.udp_pull Field.q_TI 48 32,
         Call.udp_pull Field.q_BI 80 32,
         Call.udp_pull Field.w_BI_B 112 24,
         Call.reuc (decodeFrame h.order t.data).I (decodeFrame h.order t.data).kappa_c
           (decodeFrame h.order t.data).mu_c (decodeFrame h.order t.data).rho
           (decodeFrame h.order t.data).alpha (decodeFrame h.order t.data).q_TI
           (decodeFrame h.order t.data).q_BI (decodeFrame h.order t.data).w_BI_B,
         Call.udp_push (storeVec3 h.order (h.torque (decodeFrame h.order t.data))),
         Call.udp_transmit (storeVec3 h.order (h.torque (decodeFrame h.order t.data)))] ∧
      s1.frame = decodeFrame h.order t.data ∧
      s1.tau_B = h.torque (decodeFrame h.order t.data) ∧
      (storeVec3 h.order (h.torque (decodeFrame h.order t.data))).length = 24 ∧
      s1.comms.sent =
        s.comms.sent ++ [storeVec3 h.order (h.torque (decodeFrame h.order t.data))] := by
  have hb := loopHead_send_buffer h s hs
  have hfr := frame_eq_decode h t hfull.1
  refine ⟨passOf h s t, iteration_of_pos h s t (flagOf_pos_of_full h t hfull), ?_, ?_, ?_,
    length_storeVec3 _ _, ?_⟩
  · rw [passOf_trace h s t hb, hfr]
    rfl
  · rw [passOf_frame, hfr]
  · rw [passOf_tau_B, hfr]
  · rw [passOf_sent h s t hb, hfr]
    rfl

set_option maxRecDepth 100000 in
theorem C4_witness :
    LoopHead sampleTarget main_init ∧ FullFrame sampleTarget sampleTick ∧
    ∃ s1, iteration sampleTarget main_init (Event.arrival sampleTick) = Step.next s1 ∧
      s1.tau_B = sampleTarget.torque (decodeFrame sampleTarget.order sampleTick.data) :=
  ⟨LoopHead.init, by decide,
   (C4_reply_is_the_controller_torque sampleTarget main_init sampleTick LoopHead.init
      (by decide)).imp fun _ hx => ⟨hx.1, hx.2.2.2.1⟩⟩

/-! ### The termination test -/

theorem passOf_trace_any (h : Target) (s : Vars) (t : Tick) :
    (passOf h s t).trace = s.trace ++
      [Call.udp_receive,
       Call.udp_pull Field.status 0 8,
       Call.udp_pull Field.I 8 8,
       Call.udp_pull Field.kappa_c 16 8,
       Call.udp_pull Field.mu_c 24 8,
       Call.udp_pull Field.rho 32 8,
       Call.udp_pull Field.alpha 40 8,
       Call.udp_pull Field.q_TI 48 32,
       Call.udp_pull Field.q_BI 80 32,
       Call.udp_pull Field.w_BI_B 112 24,
       reucCall (t.frame h),
       Call.udp_push (h.reply (t.frame h)),
       Call.udp_transmit (s.comms.send_buffer ++ h.reply (t.frame h))] := by
  simp [passOf, transmit, push_reply, run_reuc, read_fields, read_status, receive, pull,
    udp_pull, udp_receive, udp_push, Tick.frame, Tick.peek, reucCall,
    Target.reply, Target.torque, take_storeVec3]

theorem passOf_sent_any (h : Target) (s : Vars) (t : Tick) :
    (passOf h s t).comms.sent =
      s.comms.sent ++ [s.comms.send_buffer ++ h.reply (t.frame h)] := by
  simp [passOf, transmit, udp_transmit, push_reply, run_reuc, read_fields, read_status,
    receive, pull, udp_pull, udp_receive, udp_push, Tick.frame, Tick.peek,
    Target.reply, Target.torque, take_storeVec3]

/-- C5 (as amended): the continue-flag is compared as the unsigned 64-bit
integer it is declared as. A pass breaks out of the loop exactly when the flag
is 0, and then the controller is not called and nothing is transmitted. A flag
whose stored value is at least `2 ^ 63` is greater than zero: the pass does not
break, it calls the controller once on the fields read from the datagram,
leaves the torque in `tau_B`, and transmits one frame, the pending outbound
buffer followed by the 24 bytes of that torque, which the network gets; at the
head of the loop the pending buffer is empty, so that frame is the reply. -/
theorem C5_loop_ends_only_on_flag_zero (h : Target) (s : Vars) (t : Tick) :
    flagOf h t < 2 ^ 64 ∧
    (Step.isBrk (iteration h s (Event.arrival t)) = true ↔ flagOf h t = 0) ∧
    (flagOf h t = 0 →
      (iteration h s (Event.arrival t)).vars.trace =
        s.trace ++ [Call.udp_receive, Call.udp_pull Field.status 0 8] ∧
      numTransmits (iteration h s (Event.arrival t)).vars.trace = numTransmits s.trace ∧
      (iteration h s (Event.arrival t)).vars.comms.sent = s.comms.sent) ∧
    (2 ^ 63 ≤ flagOf h t →
      Step.isBrk (iteration h s (Event.arrival t)) = false ∧
      numTransmits (iteration h s (Event.arrival t)).vars.trace = numTransmits s.trace + 1 ∧
      ∃ s1, iteration h s (Event.arrival t) = Step.next s1 ∧
        invocations s1.trace = invocations s.trace ++ [reucCall (t.frame h)] ∧
        transmitted s1.trace =
          transmitted s.trace ++ [s.comms.send_buffer ++ h.reply (t.frame h)] ∧
        s1.tau_B = h.torque (t.frame h) ∧
        s1.comms.sent = s.comms.sent ++ [s.comms.send_buffer ++ h.reply (t.frame h)]) ∧
    (LoopHead h s → s.comms.send_buffer = []) := by
  refine ⟨flagOf_lt h t, ?_, ?_, ?_, loopHead_send_buffer h s⟩
  · by_cases hf : flagOf h t = 0
    · rw [iteration_of_zero h s t hf]
      simp [Step.isBrk, hf]
    · rw [iteration_of_pos h s t (Nat.pos_of_ne_zero hf)]
      simp [Step.isBrk, hf]
  · intro hf
    rw [iteration_of_zero h s t hf]
    refine ⟨brk_trace h s t, ?_, ?_⟩
    · simp [Step.vars, brk_trace, numTransmits, List.countP_append, List.countP_cons,
        Call.isTransmit]
    · simp [Step.vars, read_status, receive, pull, udp_pull, udp_receive]
  · intro hf
    have hpos : 0 < flagOf h t := lt_of_lt_of_le (by norm_num) hf
    rw [iteration_of_pos h s t hpos]
    refine ⟨rfl, ?_, passOf h s t, rfl, ?_, ?_, passOf_tau_B h s t, passOf_sent_any h s t⟩
    · simp [Step.vars, passOf_trace_any, numTransmits, List.countP_append,
        List.countP_cons, Call.isTransmit, reucCall]
    · simp [passOf_trace_any, invocations, List.filter_append, List.filter_cons,
        Call.isReuc, reucCall]
    · simp [passOf_trace_any, transmitted, List.filterMap_append, List.filterMap_cons,
        reucCall]

set_option maxRecDepth 100000 in
theorem C5_witness :
    2 ^ 63 ≤ flagOf sampleTarget negativeTick ∧
    Step.isBrk (iteration sampleTarget main_init (Event.arrival negativeTick)) = false ∧
    ∃ s1, iteration sampleTarget main_init (Event.arrival negativeTick) = Step.next s1 ∧
      invocations s1.trace =
        invocations main_init.trace ++ [reucCall (negativeTick.frame sampleTarget)] ∧
      transmitted s1.trace =
        transmitted main_init.trace ++
          [main_init.comms.send_buffer ++
            sampleTarget.reply (negativeTick.frame sampleTarget)] :=
  ⟨by decide,
   ((C5_loop_ends_only_on_flag_zero sampleTarget main_init negativeTick).2.2.2.1
      (by decide)).1,
   ((C5_loop_ends_only_on_flag_zero sampleTarget main_init negativeTick).2.2.2.1
      (by decide)).2.2.imp fun _ hx => ⟨hx.1, hx.2.1, hx.2.2.1⟩⟩

set_option maxRecDepth 100000 in
/-- C5 fails as stated: the full-length frame `negativeTick` has the
continue-flag `2 ^ 63`, the most negative value when read as a signed 64-bit
integer, and `main` does not terminate on it: it calls the controller,
transmits a reply and goes back to `udp_receive`, where this run stays
blocked. -/
theorem C5_counterexample :
    negativeTick.data.length = 136 ∧
    load sampleTarget.order (negativeTick.data.take 8) = 2 ^ 63 ∧
    (main sampleTarget [Event.arrival negativeTick]).code = none ∧
    (main sampleTarget [Event.arrival negativeTick]).isFailed = false ∧
    numReceives (main sampleTarget [Event.arrival negativeTick]).vars.trace = 2 ∧
    invocations (main sampleTarget [Event.arrival negativeTick]).vars.trace =
      [reucCall (decodeFrame sampleTarget.order negativeTick.data)] ∧
    transmitted (main sampleTarget [Event.arrival negativeTick]).vars.trace =
      [sampleTarget.reply (decodeFrame sampleTarget.order negativeTick.data)] ∧
    (main sampleTarget [Event.arrival negativeTick]).vars.comms.sent =
      [sampleTarget.reply (decodeFrame sampleTarget.order negativeTick.data)] := by
  decide

/-! ### Short datagrams -/

set_option maxRecDepth 100000 in
/-- C6 fails as stated: `shortTick` is a datagram of 8 bytes with continue-flag
1; `udp_receive` returns 8, and `main` still reads nine fields, calls the
controller on the values the reads past the end of the datagram give (here
zeros), transmits the 24-byte reply computed from them and goes on to the next
datagram; no decode error ends the run. -/
theorem C6_counterexample :
    shortTick.data.length = 8 ∧
    0 < flagOf sampleTarget shortTick ∧
    (iteration sampleTarget main_init (Event.arrival shortTick)).vars.bytes_received = 8 ∧
    invocations
      (main sampleTarget [Event.arrival shortTick, Event.arrival stopTick]).vars.trace =
      [Call.reuc 0 0 0 0 0 ⟨0, 0, 0, 0⟩ ⟨0, 0, 0, 0⟩ ⟨0, 0, 0⟩] ∧
    transmitted
      (main sampleTarget [Event.arrival shortTick, Event.arrival stopTick]).vars.trace =
      [List.replicate 24 0] ∧
    (main sampleTarget [Event.arrival shortTick, Event.arrival stopTick]).vars.comms.sent =
      [List.replicate 24 0] ∧
    numReceives
      (main sampleTarget [Event.arrival shortTick, Event.arrival stopTick]).vars.trace = 2 ∧
    (main sampleTarget [Event.arrival shortTick, Event.arrival stopTick]).code = some 0 := by
  decide

/-- C6 (as amended): at the head of the loop, a datagram of any length whose
continue-flag is greater than zero gets the full pass. The byte count that
`udp_receive` returns is kept in `bytes_received` and never compared with the
frame size: the pass makes the nine field reads, calls the controller once on
the values the reads give (`t.frame h`, which past the end of the datagram is
whatever the transport's read yields) and transmits the reply computed from
them. -/
theorem C6_any_length_gets_a_reply (h : Target) (s : Vars) (t : Tick)
    (hs : LoopHead h s) (hflag : 0 < flagOf h t) :
    ∃ s1, iteration h s (Event.arrival t) = Step.next s1 ∧
      s1.bytes_received = (udp_receive s.comms t).2 ∧
      s1.trace = s.trace ++ tickCalls h (t.frame h) ∧
      pulls (tickCalls h (t.frame h)) = framePulls ∧
      invocations (tickCalls h (t.frame h)) = [reucCall (t.frame h)] ∧
      transmitted (tickCalls h (t.frame h)) = [h.reply (t.frame h)] ∧
      s1.frame = t.frame h := by
  refine ⟨passOf h s t, iteration_of_pos h s t hflag, ?_,
    passOf_trace h s t (loopHead_send_buffer h s hs), ?_, ?_, ?_, passOf_frame h s t⟩
  · simp [passOf, transmit, push_reply, run_reuc, read_fields, read_status, receive, pull]
  · simp [pulls, tickCalls, reucCall, framePulls]
  · simp [invocations, tickCalls, reucCall, Call.isReuc]
  · simp [transmitted, tickCalls, reucCall]

set_option maxRecDepth 100000 in
theorem C6_witness :
    LoopHead sampleTarget main_init ∧ 0 < flagOf sampleTarget shortTick ∧
    shortTick.data.length < 136 ∧
    ∃ s1, iteration sampleTarget main_init (Event.arrival shortTick) = Step.next s1 ∧
      s1.bytes_received = (udp_receive main_init.comms shortTick).2 :=
  ⟨LoopHead.init, by decide, by decide,
   (C6_any_length_gets_a_reply sampleTarget main_init shortTick LoopHead.init
      (by decide)).imp fun _ hx => ⟨hx.1, hx.2.1⟩⟩

/-! ### Transport failures -/

theorem main_trace (h : Target) (inbox : List Event) :
    (main h inbox).vars.trace =
      (main_loop h main_init inbox).1.trace ++
        if (main_loop h main_init inbox).2 = Halt.brk then [Call.udp_close] else [] := by
  simp only [main, main_from]
  rcases hm : main_loop h main_init inbox with ⟨s1, b⟩
  cases b <;> simp [tidy_up, Outcome.vars]

theorem last_tickCalls (h : Target) (f : Frame) :
    (tickCalls h f).getLast? = some (Call.udp_transmit (h.reply f)) := by
  simp [tickCalls]

/-- C7: a transport call that fails ends the run at that call. When the
`udp_receive` of a pass fails, the failing receive is the last call of the run:
no field is read, the controller is not called, nothing is pushed or
transmitted, and the events that follow are never received. When the
`udp_transmit` of a pass fails, the failing transmit is the last call of the
run: its frame does not reach the network and no further receive is made. In
both cases the process is ended (it neither returns from `main` nor waits for
a datagram), and the network has got exactly the replies to the frames before
the failure. -/
theorem C7_transport_failure_ends_the_run (h : Target) (pre : List Tick) (rest : List Event)
    (hpre : ∀ u ∈ pre, 0 < flagOf h u) :
    ((main h (arrivals pre ++ Event.recv_failure :: rest)).isFailed = true ∧
     (main h (arrivals pre ++ Event.recv_failure :: rest)).code = none ∧
     (main h (arrivals pre ++ Event.recv_failure :: rest)).vars.trace =
       Call.udp_helper 2000 2001 1 :: (ticksCalls h pre ++ [Call.udp_receive]) ∧
     numReceives (main h (arrivals pre ++ Event.recv_failure :: rest)).vars.trace =
       pre.length + 1 ∧
     (main h (arrivals pre ++ Event.recv_failure :: rest)).vars.comms.sent =
       pre.map (fun u => h.reply (u.frame h))) ∧
    (∀ t : Tick, 0 < flagOf h t →
      (main h (arrivals pre ++ Event.send_failure t :: rest)).isFailed = true ∧
      (main h (arrivals pre ++ Event.send_failure t :: rest)).code = none ∧
      (main h (arrivals pre ++ Event.send_failure t :: rest)).vars.trace =
        Call.udp_helper 2000 2001 1 :: (ticksCalls h pre ++ tickCalls h (t.frame h)) ∧
      (tickCalls h (t.frame h)).getLast? = some (Call.udp_transmit (h.reply (t.frame h))) ∧
      numReceives (main h (arrivals pre ++ Event.send_failure t :: rest)).vars.trace =
        pre.length + 1 ∧
      numTransmits (main h (arrivals pre ++ Event.send_failure t :: rest)).vars.trace =
        pre.length + 1 ∧
      (main h (arrivals pre ++ Event.send_failure t :: rest)).vars.comms.sent =
        pre.map (fun u => h.reply (u.frame h))) := by
  have hb := passesOf_send_buffer h pre main_init rfl
  have hsent := passesOf_sent h pre main_init rfl
  have htr := passesOf_trace h pre main_init rfl
  have hnr := numReceives_ticksCalls h pre
  have hnt := numTransmits_ticksCalls h pre
  simp only [numReceives, numTransmits] at hnr hnt
  constructor
  · have hrun : main h (arrivals pre ++ Event.recv_failure :: rest) =
        Outcome.failed
          { passesOf h main_init pre with
            trace := (passesOf h main_init pre).trace ++ [Call.udp_receive] } := by
      simp only [main, main_from, main_loop_append h pre main_init _ hpre,
        main_loop_recv_failure]
    rw [hrun]
    refine ⟨rfl, rfl, ?_, ?_, ?_⟩
    · simp only [Outcome.vars]
      rw [htr]
      simp [main_init]
    · simp only [Outcome.vars]
      rw [htr]
      simp [main_init, numReceives, List.countP_cons, List.countP_append, hnr,
        Call.isReceive]
    · simp only [Outcome.vars]
      rw [hsent]
      simp [main_init, udp_helper]
  · intro t ht
    have hrun : main h (arrivals pre ++ Event.send_failure t :: rest) =
        Outcome.failed
          { passOf h (passesOf h main_init pre) t with
            comms := (push_reply h (run_reuc h (read_fields h (read_status h
              (receive (passesOf h main_init pre) t))))).comms
            bytes_sent := (passesOf h main_init pre).bytes_sent } := by
      simp only [main, main_from, main_loop_append h pre main_init _ hpre,
        main_loop_send_failure h _ t rest ht]
    have hft := failed_send_trace h (passesOf h main_init pre) t hb
    rw [hrun]
    refine ⟨rfl, rfl, ?_, last_tickCalls h _, ?_, ?_, ?_⟩
    · simp only [Outcome.vars, hft, htr]
      simp [main_init]
    · simp only [Outcome.vars, hft, htr]
      simp [main_init, numReceives, List.countP_cons, List.countP_append, hnr,
        Call.isReceive, tickCalls, reucCall]
    · simp only [Outcome.vars, hft, htr]
      simp [main_init, numTransmits, List.countP_cons, List.countP_append, hnt,
        Call.isTransmit, tickCalls, reucCall]
    · simp only [Outcome.vars, push_reply, udp_push, run_reuc, read_fields, read_status,
        receive, pull, udp_pull, udp_receive]
      rw [hsent]
      simp [main_init, udp_helper]

set_option maxRecDepth 100000 in
theorem C7_witness :
    (∀ u ∈ [sampleTick], 0 < flagOf sampleTarget u) ∧
    0 < flagOf sampleTarget sampleTick2 ∧
    (main sampleTarget
      (arrivals [sampleTick] ++ Event.recv_failure :: [Event.arrival sampleTick2])).isFailed
      = true ∧
    numReceives (main sampleTarget
      (arrivals [sampleTick] ++ Event.send_failure sampleTick2 ::
        [Event.arrival sampleTick2])).vars.trace = [sampleTick].length + 1 :=
  ⟨by decide, by decide,
   (C7_transport_failure_ends_the_run sampleTarget [sampleTick] [Event.arrival sampleTick2]
      (by decide)).1.1,
   ((C7_transport_failure_ends_the_run sampleTarget [sampleTick] [Event.arrival sampleTick2]
      (by decide)).2 sampleTick2 (by decide)).2.2.2.2.1⟩

/-! ### The round trip through the wire format -/

theorem take_store_append (o : ByteOrder) (v : Nat) (r : List Nat) :
    (store o v ++ r).take 8 = store o v := by
  rw [List.take_append_of_le_length (by rw [length_store])]
  exact List.take_of_length_le (by rw [length_store])

theorem take_store (o : ByteOrder) (v : Nat) : (store o v).take 8 = store o v :=
  List.take_of_length_le (by rw [length_store])

theorem drop_store_append (o : ByteOrder) (v : Nat) (r : List Nat) (k : Nat) (hk : 8 ≤ k) :
    (store o v ++ r).drop k = r.drop (k - 8) := by
  rw [List.drop_append_eq_append_drop, length_store,
    List.drop_eq_nil_of_le (by rw [length_store]; exact hk), List.nil_append]

theorem length_encodeFrame (o : ByteOrder) (f : Frame) : (encodeFrame o f).length = 136 := by
  simp [encodeFrame, length_store, length_storeVec3, length_storeVec4]

theorem decode_encode (o : ByteOrder) (f : Frame) (hf : f.wf) :
    decodeFrame o (encodeFrame o f) = f := by
  obtain ⟨h0, h1, h2, h3, h4, h5, ⟨h6, h7, h8, h9⟩, ⟨h10, h11, h12, h13⟩, h14, h15, h16⟩ := hf
  simp only [decodeFrame, encodeFrame, storeVec4, storeVec3, loadVec4, loadVec3,
    List.append_assoc, List.take_take, List.drop_take, List.drop_drop]
  simp [take_store_append, take_store, drop_store_append]
  rw [load_store o _ h0, load_store o _ h1, load_store o _ h2, load_store o _ h3,
    load_store o _ h4, load_store o _ h5, load_store o _ h6, load_store o _ h7,
    load_store o _ h8, load_store o _ h9, load_store o _ h10, load_store o _ h11,
    load_store o _ h12, load_store o _ h13, load_store o _ h14, load_store o _ h15,
    load_store o _ h16]

/-- C8: for every frame whose fields are 64-bit values, the concatenation of
its fields in the documented order and widths is 136 bytes long, and the
sequence of field reads of `main` (line 55, then lines 57-64) on a datagram
holding those bytes leaves in the nine field variables exactly the values of
the frame, whatever the variables held before and for either byte order. In
the loop itself the reads after the first are made when the continue-flag is
greater than zero, and the pass then ends with the variables equal to the
frame. -/
theorem C8_encode_then_read_round_trip (h : Target) (f : Frame) (s : Vars) (t : Tick)
    (hf : f.wf) (ht : t.data = encodeFrame h.order f) :
    t.data.length = 136 ∧
    decodeFrame h.order t.data = f ∧
    (read_fields h (read_status h (receive s t))).frame = f ∧
    (0 < f.status → (iteration h s (Event.arrival t)).vars.frame = f) := by
  have hl : t.data.length = 136 := by rw [ht, length_encodeFrame]
  have hd : decodeFrame h.order t.data = f := by rw [ht, decode_encode h.order f hf]
  have hfr : t.frame h = f := by rw [frame_eq_decode h t hl, hd]
  refine ⟨hl, hd, ?_, ?_⟩
  · rw [reads_frame, hfr]
  · intro hpos
    have hflag : flagOf h t = f.status := by
      have h1 : (t.frame h).status = f.status := by rw [hfr]
      exact h1
    rw [iteration_of_pos h s t (by rw [hflag]; exact hpos)]
    exact (passOf_frame h s t).trans hfr

set_option maxRecDepth 100000 in
theorem C8_witness :
    sampleFrame.wf ∧ sampleTick.data = encodeFrame sampleTarget.order sampleFrame ∧
    (read_fields sampleTarget (read_status sampleTarget (receive main_init sampleTick))).frame
      = sampleFrame ∧
    (iteration sampleTarget main_init (Event.arrival sampleTick)).vars.frame = sampleFrame :=
  ⟨by decide, rfl,
   (C8_encode_then_read_round_trip sampleTarget sampleFrame main_init sampleTick
      (by decide) rfl).2.2.1,
   (C8_encode_then_read_round_trip sampleTarget sampleFrame main_init sampleTick
      (by decide) rfl).2.2.2 (by decide)⟩

/-! ### The order of the transport calls -/

theorem paired_counts (tr : List Call) (b : Bool) (hp : paired b tr = true) (k : Nat) :
    numTransmits (tr.take k) ≤ numReceives (tr.take k) + b.toNat ∧
    numReceives (tr.take k) + b.toNat ≤ numTransmits (tr.take k) + 1 := by
  induction tr generalizing b k with
  | nil => cases b <;> simp [numTransmits, numReceives]
  | cons c tr ih =>
    cases k with
    | zero => cases b <;> simp [numTransmits, numReceives]
    | succ k =>
      cases c <;> cases b <;>
        simp only [paired, Bool.false_eq_true] at hp <;>
        have := ih _ hp k <;>
        simp only [List.take_succ_cons, numTransmits, numReceives, List.countP_cons,
          Call.isTransmit, Call.isReceive, Bool.toNat_false, Bool.toNat_true] at this ⊢ <;>
        simp only [Bool.false_eq_true, if_false, if_true] <;>
        omega

theorem paired_tickCalls_append (h : Target) (f : Frame) (ext : List Call) :
    paired false (tickCalls h f ++ ext) = paired false ext := by
  simp [tickCalls, reucCall, paired]

theorem main_loop_paired (h : Target) (inbox : List Event) (s : Vars)
    (hs : s.comms.send_buffer = []) :
    ∃ ext, (main_loop h s inbox).1.trace = s.trace ++ ext ∧
      paired false (ext ++ [Call.udp_close]) = true := by
  induction inbox generalizing s with
  | nil => exact ⟨[Call.udp_receive], rfl, rfl⟩
  | cons e es ih =>
    cases e with
    | recv_failure =>
      rw [main_loop_recv_failure]
      exact ⟨[Call.udp_receive], rfl, rfl⟩
    | arrival t =>
      by_cases hf : flagOf h t = 0
      · rw [main_loop_zero h s t es hf]
        exact ⟨_, brk_trace h s t, rfl⟩
      · simp only [main_loop, iteration_of_pos h s t (Nat.pos_of_ne_zero hf)]
        obtain ⟨ext, he, hp⟩ := ih (passOf h s t) (passOf_send_buffer h s t)
        refine ⟨tickCalls h (t.frame h) ++ ext, ?_, ?_⟩
        · rw [he, passOf_trace h s t hs, List.append_assoc]
        · rw [List.append_assoc, paired_tickCalls_append]
          exact hp
    | send_failure t =>
      by_cases hf : flagOf h t = 0
      · rw [main_loop_send_failure_zero h s t es hf]
        exact ⟨_, brk_trace h s t, rfl⟩
      · rw [main_loop_send_failure h s t es (Nat.pos_of_ne_zero hf)]
        refine ⟨tickCalls h (t.frame h), failed_send_trace h s t hs, ?_⟩
        rw [paired_tickCalls_append]
        rfl

theorem paired_of_append_close (b : Bool) (ext : List Call)
    (hp : paired b (ext ++ [Call.udp_close]) = true) : paired b ext = true := by
  induction ext generalizing b with
  | nil => cases b <;> rfl
  | cons c ext ih =>
    cases c <;> cases b <;> simp only [List.cons_append, paired, Bool.false_eq_true] at hp ⊢ <;>
      exact ih _ hp

theorem main_paired (h : Target) (inbox : List Event) :
    paired false (main h inbox).vars.trace = true := by
  obtain ⟨ext, he, hp⟩ := main_loop_paired h inbox main_init rfl
  rw [main_trace, he]
  cases hb : (main_loop h main_init inbox).2
  · simp only [if_true, List.append_assoc]
    exact hp
  · simp only [reduceCtorEq, if_false, List.append_nil]
    exact paired_of_append_close _ _ hp
  · simp only [reduceCtorEq, if_false, List.append_nil]
    exact paired_of_append_close _ _ hp

/-- C9: in every run of `main`, returning, blocked in `udp_receive` or ended
by a transport call that fails, and in every prefix of its call trace (the
calls made up to any point of the run), the number of transmits is at most the number of receives and at least the number
of receives minus one: a receive begins only when every frame received before
has had its reply transmitted, and at most one frame awaits its reply. -/
theorem C9_reply_sent_before_next_receive (h : Target) (inbox : List Event) (k : Nat) :
    numTransmits ((main h inbox).vars.trace.take k) ≤
      numReceives ((main h inbox).vars.trace.take k) ∧
    numReceives ((main h inbox).vars.trace.take k) ≤
      numTransmits ((main h inbox).vars.trace.take k) + 1 := by
  have := paired_counts _ false (main_paired h inbox) k
  simpa using this

/-! ### Independence from earlier ticks -/

theorem main_trace_extends (h : Target) (pre : List Tick) (rest : List Event)
    (hpre : ∀ u ∈ pre, 0 < flagOf h u) :
    ∃ ext, (main h (arrivals pre ++ rest)).vars.trace =
      Call.udp_helper 2000 2001 1 :: (ticksCalls h pre ++ ext) := by
  obtain ⟨ext, he, _⟩ :=
    main_loop_paired h rest (passesOf h main_init pre) (passesOf_send_buffer h pre _ rfl)
  refine ⟨ext ++ if (main_loop h main_init (arrivals pre ++ rest)).2 = Halt.brk then
    [Call.udp_close] else [], ?_⟩
  rw [main_trace, main_loop_append h pre main_init rest hpre, he,
    passesOf_trace h pre main_init rfl]
  simp [main_init]

theorem ticksCalls_append (h : Target) (xs ys : List Tick) :
    ticksCalls h (xs ++ ys) = ticksCalls h xs ++ ticksCalls h ys := by
  induction xs with
  | nil => rfl
  | cons x xs ih => simp [ticksCalls, ih]

theorem reply_at_tick (h : Target) (pre : List Tick) (t : Tick) (rest : List Event)
    (hpre : ∀ u ∈ pre, 0 < flagOf h u) (ht : FullFrame h t) :
    (transmitted (main h (arrivals pre ++ Event.arrival t :: rest)).vars.trace)[pre.length]? =
      some (h.reply (decodeFrame h.order t.data)) := by
  have hall : ∀ u ∈ pre ++ [t], 0 < flagOf h u := by
    intro u hu
    rcases List.mem_append.mp hu with hu | hu
    · exact hpre u hu
    · rw [List.mem_singleton.mp hu]
      exact flagOf_pos_of_full h t ht
  obtain ⟨ext, he⟩ := main_trace_extends h (pre ++ [t]) rest hall
  have harr : arrivals (pre ++ [t]) ++ rest = arrivals pre ++ Event.arrival t :: rest := by
    simp [arrivals]
  rw [harr] at he
  rw [he, ticksCalls_append]
  have h1 : transmitted (Call.udp_helper 2000 2001 1 ::
      (ticksCalls h pre ++ ticksCalls h [t] ++ ext)) =
      (pre.map fun u => h.reply (u.frame h)) ++ (h.reply (t.frame h) :: transmitted ext) := by
    have h2 := transmitted_ticksCalls h pre
    have h3 := transmitted_ticksCalls h [t]
    simp only [transmitted, List.filterMap_cons, List.filterMap_append] at h2 h3 ⊢
    rw [h2, h3]
    simp
  rw [h1, List.getElem?_append_right (by simp)]
  simp [frame_eq_decode h t ht.1]

/-- C10: in two runs of `main` whose tick-`N` datagram is the same full-length
frame with continue-flag greater than zero, after `N` arbitrary full-length
frames with continue-flag greater than zero in each and whatever follows, the
frame transmitted at tick `N` is the same: it is the reply of the controller to
the fields of the tick-`N` frame alone. The field variables and `tau_B`, which
keep their values from one pass to the next, carry nothing from the earlier
ticks into it; the controller is a function of its eight inputs. -/
theorem C10_reply_independent_of_earlier_ticks (h : Target) (pre1 pre2 : List Tick)
    (t : Tick) (rest1 rest2 : List Event) (hlen : pre1.length = pre2.length)
    (h1 : ∀ u ∈ pre1, FullFrame h u) (h2 : ∀ u ∈ pre2, FullFrame h u)
    (ht : FullFrame h t) :
    (transmitted (main h (arrivals pre1 ++ Event.arrival t :: rest1)).vars.trace)[pre1.length]? =
      (transmitted (main h (arrivals pre2 ++ Event.arrival t :: rest2)).vars.trace)[pre1.length]? ∧
    (transmitted (main h (arrivals pre1 ++ Event.arrival t :: rest1)).vars.trace)[pre1.length]? =
      some (h.reply (decodeFrame h.order t.data)) := by
  have e1 := reply_at_tick h pre1 t rest1 (fun u hu => flagOf_pos_of_full h u (h1 u hu)) ht
  have e2 := reply_at_tick h pre2 t rest2 (fun u hu => flagOf_pos_of_full h u (h2 u hu)) ht
  rw [← hlen] at e2
  exact ⟨e1.trans e2.symm, e1⟩

set_option maxRecDepth 100000 in
theorem C10_witness :
    [sampleTick].length = [sampleTick2].length ∧
    (∀ u ∈ [sampleTick], FullFrame sampleTarget u) ∧
    (∀ u ∈ [sampleTick2], FullFrame sampleTarget u) ∧
    FullFrame sampleTarget sampleTick ∧
    (transmitted (main sampleTarget
        (arrivals [sampleTick] ++ Event.arrival sampleTick ::
          [Event.arrival stopTick])).vars.trace)[[sampleTick].length]? =
      (transmitted (main sampleTarget
        (arrivals [sampleTick2] ++ Event.arrival sampleTick :: [])).vars.trace)[
          [sampleTick].length]? :=
  ⟨rfl, by decide, by decide, by decide,
   (C10_reply_independent_of_earlier_ticks sampleTarget [sampleTick] [sampleTick2] sampleTick
      [Event.arrival stopTick] [] rfl (by decide) (by decide) (by decide)).1⟩

end ReucPitl
